import Mathlib

/-!
Verification of the http-client-xhr request core.

Shallow embedding of the repository's three source files:
* `retryable.ts` — the `XhrFailures` enum and the default retry policy
  `retryNetworkErrors`;
* `timer.ts` — the `formatDuration` pure formatter (the `HttpTimer` event
  listener itself only records timestamps and is not needed by the claims);
* `index.ts` — the `HttpClient` / `_makeRequest` state machine: the
  `Outcome` latch, the terminal event handlers (`onDone`, `onError`,
  `onAbort`, `onTimeout`), response/header construction, `retryIfPossible`
  and the global `nextRequestId` counter.

Numbers are modelled as `Nat` (all the quantities involved — millisecond
durations, retry budgets, attempt numbers, request ids, status codes — are
non-negative integers in every reachable state of the program; where
JavaScript's 32-bit truncation `x | 0` matters the theorems restrict to the
range on which it is the identity and say so).  JavaScript strings are
modelled as Lean `String` / `List Char`, with the JS string primitives used
by the source (`trim`, `split('\r\n')`, `indexOf(':')`, `slice`,
`toLowerCase`) given explicit executable definitions below.
-/

/-! ## JavaScript string primitives used by the source -/

/-- Whitespace recognised by `String.prototype.trim` (the source only ever
trims ASCII header text, so the ASCII whitespace characters suffice). -/
def isJsSpace (c : Char) : Bool :=
  c == ' ' || c == '\t' || c == '\n' || c == '\r'

/-- JS `trim()` on a list of characters: drop whitespace from both ends. -/
def jsTrimList (l : List Char) : List Char :=
  ((l.dropWhile isJsSpace).reverse.dropWhile isJsSpace).reverse

/-- JS `trim()` on a string. -/
def jsTrim (s : String) : String :=
  String.mk (jsTrimList s.toList)

/-- JS `split('\r\n')`: split on each occurrence of the two-character
separator; an empty input yields `[[]]`, like `"".split(...)` yields
`[""]`. -/
def jsSplitCRLF : List Char → List (List Char)
  | [] => [[]]
  | '\r' :: '\n' :: rest => [] :: jsSplitCRLF rest
  | c :: rest =>
    match jsSplitCRLF rest with
    | [] => [[c]]
    | t :: ts => (c :: t) :: ts

/-- JS `indexOf(':')`: index of the first colon, `-1` if there is none. -/
def jsIndexOfColon (l : List Char) : Int :=
  match l.findIdx? (fun c => c == ':') with
  | some n => (n : Int)
  | none => -1

/-- Resolve a JS `slice` index against a length: negative indices count from
the end (clamped at 0), non-negative ones are clamped at the length. -/
def jsSliceIdx (len : Nat) (i : Int) : Nat :=
  if i < 0 then ((len : Int) + i).toNat else min i.toNat len

/-- JS two-argument `slice(start, stop)`. -/
def jsSlice (l : List Char) (start stop : Int) : List Char :=
  (l.take (jsSliceIdx l.length stop)).drop (jsSliceIdx l.length start)

/-- JS one-argument `slice(start)` (runs to the end of the string). -/
def jsSliceFrom (l : List Char) (start : Int) : List Char :=
  l.drop (jsSliceIdx l.length start)

/-- JS `toLowerCase()` (ASCII range, which is all the source feeds it). -/
def jsToLowerCase (s : String) : String :=
  String.mk (s.toList.map Char.toLower)

/-! ## JS object-as-map primitives

`res.headers` is a plain JS object used as a string-keyed map; assigning to
an existing key overwrites its value in place, assigning a new key appends
it in insertion order. -/

/-- Property assignment `obj[k] = v` on a JS object modelled as an ordered
association list with unique keys. -/
def objSet (m : List (String × String)) (k v : String) : List (String × String) :=
  match m with
  | [] => [(k, v)]
  | (k', v') :: rest => if k' = k then (k, v) :: rest else (k', v') :: objSet rest k v

/-- Property read `obj[k]` on the same representation. -/
def objFind (m : List (String × String)) (k : String) : Option String :=
  match m with
  | [] => none
  | (k', v) :: rest => if k' = k then some v else objFind rest k

/-! ## retryable.ts -/

/-- Enum `XhrFailures` (retryable.ts lines 3-8). -/
inductive XhrFailures
  | Status
  | Error
  | Abort
  | Timeout
deriving DecidableEq

/-! ## Transport handle and response (index.ts) -/

/-- The slice of the browser `XMLHttpRequest` object that the source reads
when an attempt terminates: `status`, `getAllResponseHeaders()`,
`response`/`responseText` (modelled as one text payload) and
`responseType`. -/
structure XMLHttpRequest where
  status : Nat
  responseHeadersBlob : String
  response : String
  responseType : String
deriving DecidableEq

/-- Interface `Response` (index.ts lines 43-50).  The optional `json` field
(set only by an external `JSON.parse` call, lines 229-237) is outside the
embedding; no claim depends on it. -/
structure Response where
  xhr : XMLHttpRequest
  statusCode : Nat
  headers : List (String × String)
  rawHeaders : List (String × String)
  body : String
deriving DecidableEq

/-- Type of `isRetryable` callbacks (retryable.ts lines 10-12). -/
def RetryPolicy : Type :=
  XMLHttpRequest → XhrFailures → Option Response → Bool

/-- Default policy `retryNetworkErrors` (retryable.ts lines 14-16).  The
arrow function declares only `(xhr, cause)`; the executor invokes it with a
third `res` argument which it therefore ignores. -/
def retryNetworkErrors (xhr : XMLHttpRequest) (cause : XhrFailures)
    (res : Option Response) : Bool :=
  cause == XhrFailures.Timeout || cause == XhrFailures.Error

/-! ## Header parsing and response construction (index.ts lines 210-227) -/

/-- One iteration of the `headers.forEach` body (index.ts lines 220-227,
up to the map/list updates): split a raw header line at its first colon and
trim both parts. -/
def parseHeaderLine (header : String) : String × String :=
  let l := header.toList
  let nameEndIndex := jsIndexOfColon l
  let name := String.mk (jsTrimList (jsSlice l 0 nameEndIndex))
  let value := String.mk (jsTrimList (jsSliceFrom l (nameEndIndex + 1)))
  (name, value)

/-- Lines 218-227: `getAllResponseHeaders().trim().split('\r\n')`, then for
each line store `headers[name.toLowerCase()] = value` and push
`[name, value]` onto `rawHeaders`.  Returns `(headers, rawHeaders)`. -/
def parseHeaders (blob : String) : List (String × String) × List (String × String) :=
  let headerLines := (jsSplitCRLF (jsTrimList blob.toList)).map String.mk
  headerLines.foldl
    (fun acc header =>
      let nv := parseHeaderLine header
      (objSet acc.1 (jsToLowerCase nv.1) nv.2, acc.2 ++ [nv]))
    ([], [])

/-- The `Response` object built by `onDone` (index.ts lines 186, 210-227):
`statusCode := xhr.status`, `body := xhr.response || xhr.responseText`
(one payload field in the model), headers parsed from the raw blob. -/
def buildResponse (xhr : XMLHttpRequest) : Response :=
  let parsed := parseHeaders xhr.responseHeadersBlob
  { xhr := xhr
    statusCode := xhr.status
    headers := parsed.1
    rawHeaders := parsed.2
    body := xhr.response }

/-! ## timer.ts: formatDuration -/

/-- timer.ts line 27. -/
def oneMinute : Nat := 60

/-- timer.ts line 28. -/
def oneHour : Nat := 60 * 60

/-- Models `Number.prototype.toPrecision(6)` for the integer inputs
`0 ≤ n ≤ 999` that `formatDuration` produces as sub-second remainders:
the decimal digits of `n` padded with a fractional part of zeros up to six
significant digits (`0 ↦ "0.00000"`, `456 ↦ "456.000"`). -/
def toPrecision6 (n : Nat) : String :=
  let s := toString n
  s ++ "." ++ String.mk (List.replicate (6 - s.length) '0')

/-- `formatDuration` (timer.ts lines 88-112), for inputs `d : Nat`.  On
`0 ≤ d < 2 ^ 31` JavaScript's `d | 0` is the identity and
`(x / 1000) | 0` is truncating division, i.e. `Nat` division here; the
subtraction `rawMilliseconds - wholeSeconds * 1000` never underflows. -/
def formatDuration (rawMilliseconds : Nat) : String :=
  let wholeSeconds := rawMilliseconds / 1000
  let milliseconds := toPrecision6 (rawMilliseconds - wholeSeconds * 1000) ++ "ms"
  if wholeSeconds < 1 then
    milliseconds
  else if wholeSeconds < oneMinute then
    toString wholeSeconds ++ "sec " ++ milliseconds
  else if wholeSeconds < oneHour then
    let minutes := wholeSeconds / oneMinute
    let remainingSeconds := wholeSeconds % oneMinute
    toString minutes ++ "min " ++ toString remainingSeconds ++ "sec " ++ milliseconds
  else
    let hours := wholeSeconds / oneHour
    let remainingMinutes := wholeSeconds % oneHour / oneMinute
    let remainingSeconds := wholeSeconds % oneHour % oneMinute
    toString hours ++ "hr " ++ toString remainingMinutes ++ "min "
      ++ toString remainingSeconds ++ "sec " ++ milliseconds

/-- The DurationFormatter contract exactly as the specification words it
(spec section 4.2, quoted by claim C10), including the final-branch
template it gives verbatim: whole seconds by truncation of `d / 1000`,
sub-second remainder to six significant digits with an `ms` suffix,
branch templates `{ms}`, `{sec}sec {ms}`, `{min}min {sec}sec {ms}` and —
as literally written there — `{hr}min {min}sec {sec}sec {ms}`. -/
def specFormatDurationClaim (d : Nat) : String :=
  let wholeSeconds := d / 1000
  let ms := toPrecision6 (d % 1000) ++ "ms"
  if wholeSeconds < 1 then
    ms
  else if wholeSeconds < 60 then
    toString wholeSeconds ++ "sec " ++ ms
  else if wholeSeconds < 3600 then
    toString (wholeSeconds / 60) ++ "min " ++ toString (wholeSeconds % 60) ++ "sec " ++ ms
  else
    toString (wholeSeconds / 3600) ++ "min " ++ toString (wholeSeconds / 60 % 60) ++ "sec "
      ++ toString (wholeSeconds % 60) ++ "sec " ++ ms

/-- The same contract with the final branch's unit suffixes repaired to
what the code emits (`{hr}hr {min}min {sec}sec {ms}`), still using the
specification's own decomposition `hr = ws / 3600`, `min = ws / 60 % 60`,
`sec = ws % 60`. -/
def specFormatDurationAmended (d : Nat) : String :=
  let wholeSeconds := d / 1000
  let ms := toPrecision6 (d % 1000) ++ "ms"
  if wholeSeconds < 1 then
    ms
  else if wholeSeconds < 60 then
    toString wholeSeconds ++ "sec " ++ ms
  else if wholeSeconds < 3600 then
    toString (wholeSeconds / 60) ++ "min " ++ toString (wholeSeconds % 60) ++ "sec " ++ ms
  else
    toString (wholeSeconds / 3600) ++ "hr " ++ toString (wholeSeconds / 60 % 60) ++ "min "
      ++ toString (wholeSeconds % 60) ++ "sec " ++ ms

/-! ## The global request-id counter (index.ts lines 8, 102-106) -/

/-- `Number.MAX_SAFE_INTEGER`. -/
def maxSafeInteger : Nat := 2 ^ 53 - 1

/-- One allocation (lines 102-106): `requestId = nextRequestId++`, then
`if (requestId >= Number.MAX_SAFE_INTEGER) nextRequestId = 1`.  The
allocated id is the counter's current value; this function is the counter's
next value. -/
def nextRequestIdAfter (nextRequestId : Nat) : Nat :=
  if nextRequestId ≥ maxSafeInteger then 1 else nextRequestId + 1

/-- The id handed to the `(k+1)`-st physical attempt ever made, starting
from the initial counter value `1` (line 8): the counter state after `k`
allocations, which is exactly the value the next allocation returns. -/
def requestIdAt (k : Nat) : Nat :=
  Nat.iterate nextRequestIdAfter k 1

/-! ## The request executor (index.ts `_makeRequest`, lines 101-309)

The executor is event-driven: the browser invokes the registered handlers
(`onError`, `onAbort`, `onTimeout`, and — ten milliseconds after the
transport reaches ready-state `Done` — the debounced `onDone` closure).
The embedding models one physical attempt as the fold of these handler
invocations, in the order the event loop runs them, over the attempt's
mutable state.  The only per-attempt mutable state the handlers touch is
the `outcome` variable (line 159); calls to the promise's
`resolve`/`reject` and to `setTimeout(doRetry, backoff)` are recorded as
emitted actions. -/

/-- Enum `Outcome` (index.ts lines 10-16).  Note that the source only ever
assigns `Outcome.Done` to the `outcome` variable (line 184); the `Error`,
`Abort` and `Timeout` members are declared but never written. -/
inductive Outcome
  | None
  | Done
  | Error
  | Abort
  | Timeout
deriving DecidableEq

/-- A handler invocation delivered to one attempt: `doneFin` is the
debounced `onDone` call scheduled at line 154, the others are the
transport's `error` / `abort` / `timeout` events (lines 161-177). -/
inductive AttemptEvent
  | doneFin
  | errorEv
  | abortEv
  | timeoutEv
deriving DecidableEq

/-- An effect a handler performs on the logical request: call `resolve`
with a response, call `reject` with the `{ xhr, cause }` object of
line 302, or schedule a retry via `setTimeout(doRetry, backoff)` with the
decremented budget carried in `newParams.retries` (lines 274-283). -/
inductive AttemptAction
  | resolveA (res : Response)
  | rejectA (xhr : XMLHttpRequest) (cause : XhrFailures)
  | retryA (newRetries : Nat) (backoff : Nat)
deriving DecidableEq

/-- Backoff computation `(2 ** attempt) * 250` (index.ts line 278). -/
def backoffDelay (attempt : Nat) : Nat :=
  2 ^ attempt * 250

/-- `retryIfPossible` (index.ts lines 269-303): `retries` is the effective
budget `params.retries == null ? this.retries : params.retries` read at
line 270.  If the budget is non-zero (JS truthiness on a number) and the
policy accepts, schedule a retry with budget `retries - 1` after
`backoffDelay attempt`; otherwise fall through to
`reject({ xhr, cause })`. -/
def retryIfPossible (p : RetryPolicy) (retries attempt : Nat)
    (xhr : XMLHttpRequest) (cause : XhrFailures) (res : Option Response) : AttemptAction :=
  if retries ≠ 0 then
    if p xhr cause res then
      AttemptAction.retryA (retries - 1) (backoffDelay attempt)
    else
      AttemptAction.rejectA xhr cause
  else
    AttemptAction.rejectA xhr cause

/-- One handler invocation (index.ts lines 161-246).  `onError`,
`onAbort` and `onTimeout` call `retryIfPossible` directly — they neither
read nor write the `outcome` latch.  The debounced `onDone` returns early
when `outcome !== Outcome.None` (line 180), otherwise sets
`outcome = Outcome.Done` (line 184), builds the response and either hands
a `>= 400` status to `retryIfPossible` as `XhrFailures.Status` with the
partial response (line 240) or resolves (line 244). -/
def handleEvent (p : RetryPolicy) (retries attempt : Nat) (xhr : XMLHttpRequest)
    (outcome : Outcome) (ev : AttemptEvent) : Outcome × Option AttemptAction :=
  match ev with
  | AttemptEvent.errorEv =>
    (outcome, some (retryIfPossible p retries attempt xhr XhrFailures.Error none))
  | AttemptEvent.abortEv =>
    (outcome, some (retryIfPossible p retries attempt xhr XhrFailures.Abort none))
  | AttemptEvent.timeoutEv =>
    (outcome, some (retryIfPossible p retries attempt xhr XhrFailures.Timeout none))
  | AttemptEvent.doneFin =>
    if outcome ≠ Outcome.None then
      (outcome, none)
    else
      let res := buildResponse xhr
      if res.statusCode ≥ 400 then
        (Outcome.Done, some (retryIfPossible p retries attempt xhr XhrFailures.Status (some res)))
      else
        (Outcome.Done, some (AttemptAction.resolveA res))

/-- One physical attempt: fold the delivered handler invocations over the
attempt's `outcome` latch (initially `Outcome.None`, line 159) and collect
every `resolve` / `reject` / retry-scheduling action the handlers emit, in
order. -/
def runAttempt (p : RetryPolicy) (retries attempt : Nat) (xhr : XMLHttpRequest)
    (events : List AttemptEvent) : List AttemptAction :=
  (events.foldl
    (fun st ev =>
      match handleEvent p retries attempt xhr st.1 ev with
      | (o, some a) => (o, st.2 ++ [a])
      | (o, none) => (o, st.2))
    (Outcome.None, ([] : List AttemptAction))).2

/-- The terminal signal of an attempt that receives a single terminal
handler invocation from its fresh state: either a resolvable response
(`Done` finalization with status `< 400`) or a failure cause together with
the partial response passed to `retryIfPossible` (`some` exactly for
`XhrFailures.Status`, lines 240 vs 164/170/176). -/
def attemptTerminal (xhr : XMLHttpRequest) (ev : AttemptEvent) :
    Sum Response (XhrFailures × Option Response) :=
  match ev with
  | AttemptEvent.doneFin =>
    let res := buildResponse xhr
    if res.statusCode ≥ 400 then
      Sum.inr (XhrFailures.Status, some res)
    else
      Sum.inl res
  | AttemptEvent.errorEv => Sum.inr (XhrFailures.Error, none)
  | AttemptEvent.abortEv => Sum.inr (XhrFailures.Abort, none)
  | AttemptEvent.timeoutEv => Sum.inr (XhrFailures.Timeout, none)

/-- Diagnostic record of one physical attempt: the value of the
`_makeRequest` parameter `attempt` for that invocation and the effective
retry budget it ran with. -/
structure AttemptRec where
  attemptNumber : Nat
  retriesRemaining : Nat
deriving DecidableEq

/-- Final settlement of a logical request chain: the argument of the one
`resolve` or `reject` call whose effect the caller observes. -/
inductive RequestResult
  | resolved (res : Response)
  | rejected (xhr : XMLHttpRequest) (cause : XhrFailures)
deriving DecidableEq

/-- Trace of a logical request chain: the per-attempt records, the backoff
delays passed to `setTimeout(doRetry, backoff)` (one per retry, in order),
and the final settlement. -/
structure ChainRun where
  attempts : List AttemptRec
  backoffs : List Nat
  result : RequestResult
deriving DecidableEq

/-- A logical request chain in which every physical attempt receives a
single terminal handler invocation, drawn from the schedule `sched`
(attempt `k` of the chain sees transport snapshot `(sched (idx+k)).1` and
terminal invocation `(sched (idx+k)).2`).  Mirrors the recursion of
`_makeRequest` (line 101) through `retryIfPossible` (lines 269-303):

* a `Done` finalization with status `< 400` resolves;
* otherwise, with effective budget `retries ≠ 0` and an accepting policy,
  a retry is scheduled after `backoffDelay attempt` and the chain recurses
  with budget `retries - 1` — and, faithfully to line 280, with the
  `attempt` parameter *omitted*, so the recursive invocation runs with the
  declaration default `attempt = 1`;
* otherwise the chain rejects with `{ xhr, cause }`.

The retry policy is fixed for the whole chain: line 267 resolves it once
per attempt from `params`, and `newParams` copies `params` (line 274). -/
def runChain (p : RetryPolicy) (retries attempt idx : Nat)
    (sched : Nat → XMLHttpRequest × AttemptEvent) : ChainRun :=
  let xhr := (sched idx).1
  match attemptTerminal xhr (sched idx).2 with
  | Sum.inl res =>
    { attempts := [⟨attempt, retries⟩], backoffs := [],
      result := RequestResult.resolved res }
  | Sum.inr cpr =>
    match retries with
    | 0 =>
      { attempts := [⟨attempt, 0⟩], backoffs := [],
        result := RequestResult.rejected xhr cpr.1 }
    | r + 1 =>
      if p xhr cpr.1 cpr.2 then
        let rest := runChain p r 1 (idx + 1) sched
        { attempts := ⟨attempt, r + 1⟩ :: rest.attempts,
          backoffs := backoffDelay attempt :: rest.backoffs,
          result := rest.result }
      else
        { attempts := [⟨attempt, r + 1⟩], backoffs := [],
          result := RequestResult.rejected xhr cpr.1 }

/-! ## The rejection value (index.ts line 302)

`reject({ xhr, cause })` passes a two-field object literal.  To reason
about which data that object carries, JS object values are modelled as
ordered lists of named fields over a sum of the value kinds in play. -/

/-- A JS value appearing as a field of the rejection object: a transport
handle, a failure cause, or a built `Response`. -/
inductive JsField
  | xhrF (x : XMLHttpRequest)
  | causeF (c : XhrFailures)
  | responseF (r : Response)
deriving DecidableEq

/-- Whether a field value is a built `Response`. -/
def JsField.isResponseValue : JsField → Bool
  | JsField.responseF _ => true
  | _ => false

/-- The object literal `{ xhr, cause }` passed to `reject` at line 302. -/
def rejectionObject (xhr : XMLHttpRequest) (cause : XhrFailures) :
    List (String × JsField) :=
  [("xhr", JsField.xhrF xhr), ("cause", JsField.causeF cause)]

/-! ## Request body transmission (index.ts lines 305-307) -/

/-- JS truthiness of the optional `params.body` (modelled for string
bodies: absent and empty-string bodies are falsy). -/
def jsBodyTruthy : Option String → Bool
  | none => false
  | some s => !s.isEmpty

/-- Whether the attempt calls `xhr.send` (index.ts lines 305-307):
`if (params.body && method !== 'GET' && method !== 'HEAD')`. -/
def sendsRequestBody (body : Option String) (method : String) : Bool :=
  jsBodyTruthy body && !(method == "GET") && !(method == "HEAD")

/-! ## Concrete fixtures used by witness and counterexample theorems -/

/-- A transport snapshot after a network failure: status 0, no headers, no
payload. -/
def xhrNet : XMLHttpRequest :=
  { status := 0, responseHeadersBlob := "", response := "", responseType := "" }

/-- A transport snapshot of a 500 server reply with one header. -/
def xhr500 : XMLHttpRequest :=
  { status := 500
    responseHeadersBlob := "Content-Type: text/plain\r\n"
    response := "upstream exploded"
    responseType := "" }

/-- Schedule on which every attempt fails with a transport error. -/
def errSched : Nat → XMLHttpRequest × AttemptEvent :=
  fun _ => (xhrNet, AttemptEvent.errorEv)

/-- Schedule on which every attempt completes with the 500 reply. -/
def statusSched : Nat → XMLHttpRequest × AttemptEvent :=
  fun _ => (xhr500, AttemptEvent.doneFin)

/-- A retry policy that accepts every failure. -/
def alwaysRetryPolicy : RetryPolicy :=
  fun _ _ _ => true

/-! ## Helper lemmas -/

/-- Reading a JS object map after an assignment: the assigned key returns
the new value, every other key is untouched. -/
theorem objFind_objSet (m : List (String × String)) (k v k' : String) :
    objFind (objSet m k v) k' = if k = k' then some v else objFind m k' := by
  induction m with
  | nil =>
    by_cases h : k = k' <;> simp [objSet, objFind, h]
  | cons hd tl ih =>
    obtain ⟨k0, v0⟩ := hd
    by_cases h0 : k0 = k
    · subst h0
      by_cases h : k0 = k' <;> simp [objSet, objFind, h]
    · by_cases h : k0 = k'
      · subst h
        have hkk : k ≠ k0 := fun h' => h0 h'.symm
        simp [objSet, objFind, h0, hkk]
      · simp [objSet, objFind, h0, h, ih]

/-- The raw-header component of the `forEach` fold is the in-order
per-line parse appended to the accumulator. -/
theorem headersFold_raw (lines : List String) (m raw : List (String × String)) :
    (lines.foldl
      (fun acc header =>
        let nv := parseHeaderLine header
        (objSet acc.1 (jsToLowerCase nv.1) nv.2, acc.2 ++ [nv]))
      (m, raw)).2 = raw ++ lines.map parseHeaderLine := by
  induction lines generalizing m raw with
  | nil => simp
  | cons h t ih =>
    rw [List.foldl_cons]
    rw [ih]
    simp

/-- Looking up a key in the header-map component of the `forEach` fold:
the value of the last processed line whose lower-cased name matches,
falling back to the accumulator. -/
theorem headersFold_find (lines : List String) (m raw : List (String × String)) (k : String) :
    objFind (lines.foldl
      (fun acc header =>
        let nv := parseHeaderLine header
        (objSet acc.1 (jsToLowerCase nv.1) nv.2, acc.2 ++ [nv]))
      (m, raw)).1 k
    = (((lines.map parseHeaderLine).reverse.find?
          (fun nv => jsToLowerCase nv.1 == k)).map Prod.snd).or (objFind m k) := by
  induction lines generalizing m raw with
  | nil => simp
  | cons h t ih =>
    rw [List.foldl_cons, ih, List.map_cons, List.reverse_cons, List.find?_append,
      objFind_objSet]
    rcases hft : (t.map parseHeaderLine).reverse.find? (fun nv => jsToLowerCase nv.1 == k)
      with _ | nv
    · by_cases hk : jsToLowerCase (parseHeaderLine h).1 = k
      · have hkb : (jsToLowerCase (parseHeaderLine h).1 == k) = true := by simp [hk]
        simp [hft, List.find?, hkb, hk, Option.or]
      · have hkb : (jsToLowerCase (parseHeaderLine h).1 == k) = false := by simp [hk]
        simp [hft, List.find?, hkb, hk, Option.or]
    · simp [hft, Option.or]

/-- From the fresh latch state, every single handler invocation emits
exactly the action determined by the attempt's terminal signal. -/
theorem handleEvent_fresh (p : RetryPolicy) (retries attempt : Nat)
    (xhr : XMLHttpRequest) (ev : AttemptEvent) :
    (handleEvent p retries attempt xhr Outcome.None ev).2
      = some (match attemptTerminal xhr ev with
          | Sum.inl res => AttemptAction.resolveA res
          | Sum.inr cpr => retryIfPossible p retries attempt xhr cpr.1 cpr.2) := by
  cases ev with
  | errorEv => rfl
  | abortEv => rfl
  | timeoutEv => rfl
  | doneFin =>
    simp only [handleEvent, attemptTerminal]
    rw [if_neg (fun h => h rfl)]
    by_cases hs : (buildResponse xhr).statusCode ≥ 400
    · simp [hs]
    · simp [hs]

/-- A chain never performs more than `retries + 1` physical attempts,
whatever the policy and the schedule. -/
theorem runChain_attempts_le (p : RetryPolicy) (R attempt idx : Nat)
    (sched : Nat → XMLHttpRequest × AttemptEvent) :
    (runChain p R attempt idx sched).attempts.length ≤ R + 1 := by
  induction R generalizing attempt idx with
  | zero =>
    rw [runChain]
    rcases h : attemptTerminal (sched idx).1 (sched idx).2 with res | cpr <;> simp [h]
  | succ r ih =>
    rw [runChain]
    rcases h : attemptTerminal (sched idx).1 (sched idx).2 with res | cpr
    · simp [h]
    · simp only [h]
      split
      · have := ih 1 (idx + 1)
        simp
        omega
      · simp

/-- Under an always-accepting policy and a schedule on which every attempt
fails, a chain with budget `R` performs exactly `R + 1` attempts, schedules
exactly `R` backoff delays, and finally rejects. -/
theorem runChain_exhausts (p : RetryPolicy)
    (hp : ∀ x c r, p x c r = true)
    (sched : Nat → XMLHttpRequest × AttemptEvent)
    (hf : ∀ k, (attemptTerminal (sched k).1 (sched k).2).isRight = true) :
    ∀ R attempt idx,
      (runChain p R attempt idx sched).attempts.length = R + 1
      ∧ (runChain p R attempt idx sched).backoffs.length = R
      ∧ ∃ x c, (runChain p R attempt idx sched).result = RequestResult.rejected x c := by
  intro R
  induction R with
  | zero =>
    intro attempt idx
    rw [runChain]
    rcases h : attemptTerminal (sched idx).1 (sched idx).2 with res | cpr
    · exact absurd (hf idx) (by simp [h])
    · simp [h]
  | succ r ih =>
    intro attempt idx
    rw [runChain]
    rcases h : attemptTerminal (sched idx).1 (sched idx).2 with res | cpr
    · exact absurd (hf idx) (by simp [h])
    · obtain ⟨ih1, ih2, ih3⟩ := ih 1 (idx + 1)
      simp only [h, hp, if_true]
      refine ⟨?_, ?_, ?_⟩
      · simp [ih1]
      · simp [ih2]
      · simpa using ih3

/-- Whenever a chain finally rejects, the rejected cause is the terminal
failure cause of one of the scheduled attempts and the rejected handle is
that attempt's transport handle. -/
theorem runChain_reject_cause (p : RetryPolicy)
    (sched : Nat → XMLHttpRequest × AttemptEvent) :
    ∀ R attempt idx x c,
      (runChain p R attempt idx sched).result = RequestResult.rejected x c →
      ∃ k cpr, (sched k).1 = x
        ∧ attemptTerminal (sched k).1 (sched k).2 = Sum.inr (c, cpr) := by
  intro R
  induction R with
  | zero =>
    intro attempt idx x c h
    rw [runChain] at h
    rcases he : attemptTerminal (sched idx).1 (sched idx).2 with res | ⟨c1, pr1⟩
    · rw [he] at h
      simp at h
    · rw [he] at h
      simp at h
      refine ⟨idx, pr1, h.1, ?_⟩
      rw [he, h.2]
  | succ r ih =>
    intro attempt idx x c h
    rw [runChain] at h
    rcases he : attemptTerminal (sched idx).1 (sched idx).2 with res | ⟨c1, pr1⟩
    · rw [he] at h
      simp at h
    · rw [he] at h
      simp only at h
      by_cases hpol : p (sched idx).1 c1 pr1
      · rw [if_pos hpol] at h
        simp at h
        exact ih 1 (idx + 1) x c h
      · rw [if_neg hpol] at h
        simp at h
        refine ⟨idx, pr1, h.1, ?_⟩
        rw [he, h.2]

/-- The request-id counter counts up by one per allocation while it has
not yet reached the ceiling. -/
theorem requestIdAt_of_le (k : Nat) (h : k + 1 ≤ maxSafeInteger) :
    requestIdAt k = k + 1 := by
  induction k with
  | zero => rfl
  | succ n ih =>
    have hM : maxSafeInteger = 9007199254740991 := by norm_num [maxSafeInteger]
    have hn : n + 1 ≤ maxSafeInteger := by omega
    unfold requestIdAt at ih ⊢
    rw [Function.iterate_succ_apply', ih hn]
    unfold nextRequestIdAfter
    have hlt : ¬ (n + 1 ≥ maxSafeInteger) := by omega
    simp [hlt]

/-- Every allocated request id lies between 1 and the ceiling. -/
theorem requestIdAt_bounds (k : Nat) :
    1 ≤ requestIdAt k ∧ requestIdAt k ≤ maxSafeInteger := by
  have hM : maxSafeInteger = 9007199254740991 := by norm_num [maxSafeInteger]
  induction k with
  | zero =>
    rw [show requestIdAt 0 = 1 from rfl]
    omega
  | succ n ih =>
    obtain ⟨ih1, ih2⟩ := ih
    unfold requestIdAt at ih1 ih2 ⊢
    rw [Function.iterate_succ_apply']
    unfold nextRequestIdAfter
    split
    · omega
    · constructor <;> omega

/-! ## Claim theorems -/

/-- C1.  The claim says the first terminal event handled sets the Outcome
latch and every later terminal-type event for the same attempt is a no-op,
so at most one of resolve/reject fires.  The code violates this: only the
debounced `onDone` reads and writes the latch, while `onError`, `onAbort`
and `onTimeout` bypass it entirely.  Concretely, when the transport fires
`error` (status 0) and the debounce timer then runs `onDone`, the attempt
first calls `reject` (from `onError`, with zero budget) and then, because
the latch is still `Outcome.None`, `onDone` proceeds and calls `resolve`
with a status-0 response: two settlement calls for one attempt, against
the code's own comment that the debounce waits for the error event. -/
theorem C1_outcome_latch_bug :
    runAttempt retryNetworkErrors 0 1 xhrNet [AttemptEvent.errorEv, AttemptEvent.doneFin]
      = [AttemptAction.rejectA xhrNet XhrFailures.Error,
         AttemptAction.resolveA (buildResponse xhrNet)] := by
  rfl

/-- C2.  The claim says every retry runs with `attemptNumber + 1` and
`retriesRemaining - 1`.  The code decrements the budget but the recursive
`_makeRequest` call omits the `attempt` argument, which therefore takes
its declaration default `1`: with budget 1 and a transport error on every
attempt, the two physical attempts are recorded as attempt number 1 with
budget 1 and again attempt number 1 with budget 0 — the attempt number
never increases.  Consequently (second conjunct) the backoff before every
retry is frozen at `backoffDelay 1 = 500`. -/
theorem C2_attempt_number_bug :
    (runChain retryNetworkErrors 1 1 0 errSched).attempts
      = [⟨1, 1⟩, ⟨1, 0⟩]
    ∧ (runChain retryNetworkErrors 2 1 0 errSched).backoffs = [500, 500] := by
  exact ⟨rfl, rfl⟩

/-- C3.  With retry budget `R` and a policy that accepts every failure, on
a schedule where every physical attempt fails the executor performs
exactly `R + 1` attempts, schedules exactly `R` backoff delays (so with
`R = 0` it rejects immediately after attempt 1 with no backoff), finally
rejects, and — for every policy, budget and schedule whatsoever — never
performs more than `R + 1` attempts. -/
theorem C3_retry_budget (p : RetryPolicy) (R : Nat)
    (sched : Nat → XMLHttpRequest × AttemptEvent)
    (hp : ∀ x c r, p x c r = true)
    (hf : ∀ k, (attemptTerminal (sched k).1 (sched k).2).isRight = true) :
    (runChain p R 1 0 sched).attempts.length = R + 1
    ∧ (runChain p R 1 0 sched).backoffs.length = R
    ∧ (∃ x c, (runChain p R 1 0 sched).result = RequestResult.rejected x c)
    ∧ ∀ (q : RetryPolicy) (R' a' i' : Nat) (sch' : Nat → XMLHttpRequest × AttemptEvent),
        (runChain q R' a' i' sch').attempts.length ≤ R' + 1 := by
  obtain ⟨h1, h2, h3⟩ := runChain_exhausts p hp sched hf R 1 0
  exact ⟨h1, h2, h3, fun q R' a' i' sch' => runChain_attempts_le q R' a' i' sch'⟩

/-- Witness for C3 at the concrete input `R = 2` with the always-accepting
policy and a transport error on every attempt. -/
theorem C3_witness :
    (∀ x c r, alwaysRetryPolicy x c r = true)
    ∧ (∀ k, (attemptTerminal (errSched k).1 (errSched k).2).isRight = true)
    ∧ (runChain alwaysRetryPolicy 2 1 0 errSched).attempts.length = 2 + 1
    ∧ (runChain alwaysRetryPolicy 2 1 0 errSched).backoffs.length = 2 := by
  have hp : ∀ x c r, alwaysRetryPolicy x c r = true := fun _ _ _ => rfl
  have hf : ∀ k, (attemptTerminal (errSched k).1 (errSched k).2).isRight = true :=
    fun _ => rfl
  have h := C3_retry_budget alwaysRetryPolicy 2 errSched hp hf
  exact ⟨hp, hf, h.1, h.2.1⟩

/-- C4.  The backoff computed when the attempt-number variable is `n` is
`(2 ^ n) * 250 = 250 * 2 ^ n` (so 500 ms when the failed attempt's number
is 1), and this quantity is strictly increasing in the attempt number. -/
theorem C4_backoff_formula (n : Nat) (h : 1 ≤ n) :
    backoffDelay n = 250 * 2 ^ n
    ∧ backoffDelay 1 = 500
    ∧ ∀ m, n < m → backoffDelay n < backoffDelay m := by
  refine ⟨by unfold backoffDelay; ring, rfl, ?_⟩
  intro m hm
  unfold backoffDelay
  have h2 : 2 ^ n < 2 ^ m := Nat.pow_lt_pow_right (by norm_num) hm
  omega

/-- Witness for C4 at the concrete attempt number 1. -/
theorem C4_witness :
    1 ≤ 1 ∧ backoffDelay 1 = 250 * 2 ^ 1 :=
  ⟨le_refl 1, (C4_backoff_formula 1 (le_refl 1)).1⟩

/-- C5.  The default retryability predicate accepts exactly the
`XhrFailures.Error` and `XhrFailures.Timeout` causes, for every transport
handle and every optional partial response (in particular it rejects
`XhrFailures.Abort` and `XhrFailures.Status`). -/
theorem C5_default_policy (xhr : XMLHttpRequest) (cause : XhrFailures)
    (res : Option Response) :
    retryNetworkErrors xhr cause res = true
      ↔ (cause = XhrFailures.Error ∨ cause = XhrFailures.Timeout) := by
  cases cause <;> simp [retryNetworkErrors]

/-- C6, counterexample to the claim as stated.  With budget 0 and a 500
reply, the chain rejects with cause `XhrFailures.Status` — but although a
non-trivial partial `Response` was built from the server's reply (middle
conjunct) and passed to the retry policy, the value passed to `reject` is
the two-field object literal `{ xhr, cause }` of line 302, which contains
no `Response`-valued field at all (last conjunct). -/
theorem C6_counterexample :
    (runChain retryNetworkErrors 0 1 0 statusSched).result
      = RequestResult.rejected xhr500 XhrFailures.Status
    ∧ (buildResponse xhr500).headers = [("content-type", "text/plain")]
    ∧ (rejectionObject xhr500 XhrFailures.Status).all
        (fun f => !(JsField.isResponseValue f.2)) = true :=
  ⟨rfl, rfl, rfl⟩

/-- C6 as amended.  Whenever a logical request finally rejects, the
rejection carries the original failure cause — the terminal failure cause
of one of the chain's physical attempts, never invented or swallowed — and
the transport handle of that failing attempt, from which the partial
response was built; the rejection value is exactly the `{ xhr, cause }`
object, and the constructed partial `Response` itself is not part of
it. -/
theorem C6_rejection_payload (p : RetryPolicy) (R attempt idx : Nat)
    (sched : Nat → XMLHttpRequest × AttemptEvent)
    (x : XMLHttpRequest) (c : XhrFailures)
    (h : (runChain p R attempt idx sched).result = RequestResult.rejected x c) :
    (∃ k cpr, (sched k).1 = x
      ∧ attemptTerminal (sched k).1 (sched k).2 = Sum.inr (c, cpr))
    ∧ rejectionObject x c = [("xhr", JsField.xhrF x), ("cause", JsField.causeF c)] :=
  ⟨runChain_reject_cause p sched R attempt idx x c h, rfl⟩

/-- Witness for C6 at the concrete 500-reply schedule with budget 0. -/
theorem C6_witness :
    (runChain retryNetworkErrors 0 1 0 statusSched).result
      = RequestResult.rejected xhr500 XhrFailures.Status
    ∧ ∃ k cpr, (statusSched k).1 = xhr500
      ∧ attemptTerminal (statusSched k).1 (statusSched k).2
          = Sum.inr (XhrFailures.Status, cpr) := by
  have h : (runChain retryNetworkErrors 0 1 0 statusSched).result
      = RequestResult.rejected xhr500 XhrFailures.Status := rfl
  exact ⟨h,
    (C6_rejection_payload retryNetworkErrors 0 1 0 statusSched xhr500
      XhrFailures.Status h).1⟩

/-- An `Option.or` with an empty fallback is the option itself. -/
theorem option_or_none {α : Type} (o : Option α) : o.or none = o := by
  cases o <;> rfl

/-- C7.  Parsing the blob `"Content-Type: application/json\r\nX-Foo:
bar\r\n"` yields the lower-cased map and the casing-preserving ordered raw
list from the claim; and in general, for every blob, `rawHeaders` is
exactly the in-order per-line parse of the trimmed, CRLF-split blob
(preserving order, casing and duplicates), while the `headers` map read at
any key returns the value of the last raw header whose lower-cased name
equals that key (lower-cased names, last-write-wins). -/
theorem C7_header_parsing :
    parseHeaders "Content-Type: application/json\r\nX-Foo: bar\r\n"
      = ([("content-type", "application/json"), ("x-foo", "bar")],
         [("Content-Type", "application/json"), ("X-Foo", "bar")])
    ∧ (∀ blob, (parseHeaders blob).2
        = ((jsSplitCRLF (jsTrimList blob.toList)).map String.mk).map parseHeaderLine)
    ∧ (∀ blob k, objFind (parseHeaders blob).1 k
        = ((parseHeaders blob).2.reverse.find?
            (fun nv => jsToLowerCase nv.1 == k)).map Prod.snd) := by
  refine ⟨by decide, ?_, ?_⟩
  · intro blob
    unfold parseHeaders
    rw [headersFold_raw]
    simp
  · intro blob k
    unfold parseHeaders
    rw [headersFold_raw, headersFold_find]
    simp only [objFind, List.nil_append, option_or_none]

/-- C8.  If the request options carry no body, or the method is GET or
HEAD, the attempt never calls the transport's `send` (lines 305-307), and
an attempt that receives no transport event performs no settlement action
at all — the promise can settle only off a terminal transport event. -/
theorem C8_no_send (body : Option String) (method : String)
    (h : body = none ∨ method = "GET" ∨ method = "HEAD") :
    sendsRequestBody body method = false
    ∧ ∀ (p : RetryPolicy) (retries attempt : Nat) (x : XMLHttpRequest),
        runAttempt p retries attempt x [] = [] := by
  constructor
  · rcases h with h | h | h <;> subst h <;>
      simp [sendsRequestBody, jsBodyTruthy]
  · intro p retries attempt x
    rfl

/-- Witness for C8 at the concrete input: no body, method POST. -/
theorem C8_witness :
    ((none : Option String) = none ∨ "POST" = "GET" ∨ "POST" = "HEAD")
    ∧ sendsRequestBody none "POST" = false := by
  have h : (none : Option String) = none ∨ "POST" = "GET" ∨ "POST" = "HEAD" :=
    Or.inl rfl
  exact ⟨h, (C8_no_send none "POST" h).1⟩

/-- C9, counterexample to the claim as stated.  The claim says the counter
wraps to 1 before any allocated id reaches `Number.MAX_SAFE_INTEGER`; but
starting from the initial counter value 1, the allocation at index
`maxSafeInteger - 1` returns exactly `maxSafeInteger` — the ceiling value
itself is allocated (the guard at line 104 resets the counter only after
handing it out). -/
theorem C9_counterexample :
    requestIdAt (maxSafeInteger - 1) = maxSafeInteger
    ∧ ¬ requestIdAt (maxSafeInteger - 1) < maxSafeInteger := by
  have hM : maxSafeInteger = 9007199254740991 := by norm_num [maxSafeInteger]
  have h := requestIdAt_of_le (maxSafeInteger - 1) (by omega)
  constructor
  · rw [h]
    omega
  · rw [h]
    omega

/-- C9 as amended.  Request ids increase by exactly one per allocation
while below the ceiling (hence are monotonically increasing and fresh per
physical attempt), the counter wraps to 1 immediately after an allocation
that has reached `Number.MAX_SAFE_INTEGER`, and no allocated id ever
exceeds the ceiling (the ceiling value itself is allocated once per
cycle). -/
theorem C9_request_ids (k : Nat) (h : k + 1 ≤ maxSafeInteger) :
    requestIdAt k = k + 1
    ∧ nextRequestIdAfter maxSafeInteger = 1
    ∧ (∀ j, 1 ≤ requestIdAt j ∧ requestIdAt j ≤ maxSafeInteger) := by
  refine ⟨requestIdAt_of_le k h, ?_, fun j => requestIdAt_bounds j⟩
  unfold nextRequestIdAfter
  simp

/-- Witness for C9 at the concrete allocation index 41. -/
theorem C9_witness :
    41 + 1 ≤ maxSafeInteger ∧ requestIdAt 41 = 42 := by
  have h : 41 + 1 ≤ maxSafeInteger := by decide
  exact ⟨h, (C9_request_ids 41 h).1⟩

/-- C10, counterexample to the claim as stated.  For durations of an hour
or more the specification's template reads `"{hr}min {min}sec {sec}sec
{ms}"`, but the code emits `hr`/`min`/`sec` unit suffixes: at
`d = 3661000` (1 h 1 min 1 s) the code produces `"1hr 1min 1sec
0.00000ms"` while the specification's template produces `"1min 1sec 1sec
0.00000ms"`. -/
theorem C10_counterexample :
    formatDuration 3661000 ≠ specFormatDurationClaim 3661000
    ∧ formatDuration 3661000 = "1hr 1min 1sec 0.00000ms"
    ∧ specFormatDurationClaim 3661000 = "1min 1sec 1sec 0.00000ms" := by
  refine ⟨by decide, rfl, rfl⟩

/-- C10 as amended: same contract with the final branch's templates
corrected to the code's unit suffixes, `"{hr}hr {min}min {sec}sec {ms}"`.
For every integer millisecond duration below `2 ^ 31` (the range on which
JavaScript's `| 0` truncation is the identity), `formatDuration` computes
whole seconds by truncation of `d / 1000`, renders the sub-second
remainder to six significant digits with an `ms` suffix, and emits the
branch templates of the amended contract, with `sec` the remainder modulo
60 and the final branch fully decomposed by integer division/modulo over
3600/60. -/
theorem C10_format_duration (d : Nat) (h : d < 2 ^ 31) :
    formatDuration d = specFormatDurationAmended d := by
  have h1 : d - d / 1000 * 1000 = d % 1000 := by omega
  have h2 : d / 1000 % 3600 / 60 = d / 1000 / 60 % 60 := by omega
  have h3 : d / 1000 % 3600 % 60 = d / 1000 % 60 := by omega
  have h4 : oneMinute = 60 := rfl
  have h5 : oneHour = 3600 := rfl
  simp only [formatDuration, specFormatDurationAmended, h4, h5, h1, h2, h3]

/-- Witness for C10 at the concrete duration 75500 ms (1 min 15.5 s). -/
theorem C10_witness :
    75500 < 2 ^ 31 ∧ formatDuration 75500 = specFormatDurationAmended 75500 :=
  ⟨by decide, C10_format_duration 75500 (by decide)⟩
